import Mathlib

/-!
Shallow embedding of the flaskapp inventory-and-order backend (src/app.py),
with proofs about its validation and order-processing logic.

Modelling conventions:
* The SQLAlchemy-backed store is a `State` of product and order lists; point
  lookup (`db.session.get`) is `List.find?` on the key.
* JSON payload fields are `Option`-valued (present or absent).  Python's
  `float(x)` / `int(x)` coercions are embedded as `FloatVal` / `IntVal`: the
  result of the coercion, or `err` when it raises `ValueError`.
* A handler returns an `HResult` together with the state left in the store.
  `crash` stands for an unhandled Python exception (KeyError, attribute
  access / method call on `None`), which surfaces as a 500 response.
* Python floats are embedded as `Rat` (only non-negativity and equality of
  payload values matter to the spec); Python ints as `Int`.
-/

/-- A stored product row: `name` is the primary key. -/
structure Product where
  name : String
  price : Rat
  quantity : Int
deriving Repr, DecidableEq

/-- A stored `ProductsOrder` association row (line item), keyed by
(product name, order id); here kept inside its owning order. -/
structure LineItem where
  product_name : String
  quantity : Int
deriving Repr, DecidableEq

/-- A stored order row with its line items. -/
structure Order where
  id : Nat
  name : String
  address : String
  completed : Bool
  date_created : String
  date_processed : Option String
  products : List LineItem
deriving Repr, DecidableEq

/-- The persistent store. -/
structure State where
  products : List Product
  orders : List Order
deriving Repr, DecidableEq

/-- `db.session.get(Product, key)`: point lookup by exact key. -/
def findProduct (ps : List Product) (key : String) : Option Product :=
  ps.find? (fun p => p.name == key)

/-- `db.session.get(Order, order_id)`. -/
def getOrder (os : List Order) (oid : Nat) : Option Order :=
  os.find? (fun o => o.id == oid)

/-- Committing a mutation of a fetched product's `quantity` back to the
store: every row with that key takes the new quantity (keys are unique in
the real database, so at most one row changes). -/
def setProductQty (ps : List Product) (key : String) (q : Int) : List Product :=
  ps.map (fun p => if p.name == key then { p with quantity := q } else p)

/-- Committing mutations of a fetched order back to the store. -/
def setOrder (os : List Order) (oid : Nat) (o' : Order) : List Order :=
  os.map (fun o => if o.id == oid then o' else o)

/-- Outcome of `float(x)` on a payload value: the float, or a `ValueError`. -/
inductive FloatVal where
  | val (q : Rat)
  | err
deriving Repr, DecidableEq

/-- Outcome of `int(x)` on a payload value: the integer, or a `ValueError`. -/
inductive IntVal where
  | val (n : Int)
  | err
deriving Repr, DecidableEq

/-- A JSON value tested with `isinstance(-, bool)`: a strict boolean, or
anything else. -/
inductive PyBool where
  | bool (b : Bool)
  | nonbool
deriving Repr, DecidableEq

/-- What a handler hands back to the HTTP layer. -/
inductive HResult where
  | okMsg (msg : String)
  | okProduct (p : Product)
  | okOrder (o : Order)
  | badRequest (msg : String)
  | notFound (msg : String)
  | crash
deriving Repr, DecidableEq

/-- `datetime.datetime.now()` value, to the precision the code formats. -/
structure DateTime where
  year : Nat
  month : Nat
  day : Nat
  hour : Nat
  minute : Nat
deriving Repr, DecidableEq

/-- The decimal digit character for `n % 10`. -/
def digitChar10 (n : Nat) : Char := Char.ofNat (48 + n % 10)

/-- Two-digit zero-padded decimal rendering (for `%m %d %H %M`). -/
def pad2 (n : Nat) : List Char := [digitChar10 (n / 10), digitChar10 n]

/-- Four-digit decimal rendering (for `%Y`; calendar years are 4 digits). -/
def pad4 (n : Nat) : List Char :=
  [digitChar10 (n / 1000), digitChar10 (n / 100), digitChar10 (n / 10), digitChar10 n]

/-- Modelled from the spec: `now.strftime("%Y-%m-%d %H:%M")` from the
external `datetime` library, "the current timestamp (format:
`YYYY-MM-DD HH:MM`)". -/
def strftime_YmdHM (d : DateTime) : String :=
  String.mk (pad4 d.year ++ ['-'] ++ pad2 d.month ++ ['-'] ++ pad2 d.day
    ++ [' '] ++ pad2 d.hour ++ [':'] ++ pad2 d.minute)

/-- Checks that a string has the shape `YYYY-MM-DD HH:MM` (16 characters,
digits and the three separators in place). -/
def tsFormatOk (s : String) : Bool :=
  match s.data with
  | [y1, y2, y3, y4, c1, m1, m2, c2, d1, d2, c3, h1, h2, c4, n1, n2] =>
    y1.isDigit && y2.isDigit && y3.isDigit && y4.isDigit &&
    m1.isDigit && m2.isDigit && d1.isDigit && d2.isDigit &&
    h1.isDigit && h2.isDigit && n1.isDigit && n2.isDigit &&
    (c1 == '-') && (c2 == '-') && (c3 == ' ') && (c4 == ':')
  | _ => false

/-! ### Product handlers (src/app.py lines 27-129) -/

/-- Payload of `POST /api/product`. -/
structure ProductPayload where
  name : Option String
  price : Option FloatVal
  quantity : Option IntVal
deriving Repr, DecidableEq

/-- Python's `str.lower()` on one character (ASCII range, which covers the
payloads the spec discusses). -/
def lowerChar (c : Char) : Char :=
  if c.isUpper then Char.ofNat (c.toNat + 32) else c

/-- Python's `str.lower()`: `name.lower()` at the lookup and write
boundaries. -/
def strLower (s : String) : String := String.mk (s.data.map lowerChar)

/-- Modelled from the spec: the `Product` model (models.py, not under src/)
case-folds its identity key to lowercase at the write boundary ("store keys
in folded form"). -/
def mkProduct (name : String) (price : Rat) (quantity : Int) : Product :=
  { name := strLower name, price := price, quantity := quantity }

/-- `GET /api/product/<name>` (`api_get_product`, lines 27-41). -/
def api_get_product (st : State) (name : String) : HResult :=
  match findProduct st.products (strLower name) with
  | none => .notFound "Item not found in the database"
  | some p => .okProduct p

/-- `POST /api/product` (`api_create_product`, lines 44-78). -/
def api_create_product (st : State) (d : ProductPayload) : HResult × State :=
  match d.name with
  | none => (.badRequest "The JSON provided is invalid (missing: name)", st)
  | some name =>
  match d.price with
  | none => (.badRequest "The JSON provided is invalid (missing: price)", st)
  | some priceV =>
  match d.quantity with
  | none => (.badRequest "The JSON provided is invalid (missing: quantity)", st)
  | some quantityV =>
  match priceV with
  | .err => (.badRequest "Invalid values: price must be a positive float and quantity a positive integer", st)
  | .val price =>
  match quantityV with
  | .err => (.badRequest "Invalid values: price must be a positive float and quantity a positive integer", st)
  | .val quantity =>
  if price < 0 ∨ quantity < 0 then
    (.badRequest "Invalid values: price must be a positive float and quantity a positive integer", st)
  else
    (.okMsg "Item added to the database",
     { st with products := st.products ++ [mkProduct name price quantity] })

/-- `DELETE /api/product/<name>` (`api_delete_product`, lines 81-95).
`db.session.delete(None)` raises, hence `crash` when the lookup misses. -/
def api_delete_product (st : State) (name : String) : HResult × State :=
  match findProduct st.products (strLower name) with
  | none => (.crash, st)
  | some _ =>
    (.okMsg "Product deleted from the database",
     { st with products := st.products.filter (fun p => p.name != (strLower name)) })

/-- Payload of `PUT /api/product/<name>`. -/
structure UpdateProductPayload where
  price : Option FloatVal
  quantity : Option IntVal
deriving Repr, DecidableEq

/-- `PUT /api/product/<name>` (`api_update_product`, lines 98-129).
After the at-least-one-key guard, the handler reads `data["price"]` and
`data["quantity"]` unconditionally: a missing one raises `KeyError`, which
`except ValueError` does not catch, hence `crash`.  A missing product is
dereferenced (`product.price = ...` on `None`), hence `crash`. -/
def api_update_product (st : State) (name : String) (d : UpdateProductPayload) :
    HResult × State :=
  if d.price.isNone ∧ d.quantity.isNone then
    (.badRequest "The JSON provided is invalid", st)
  else
  match d.price with
  | none => (.crash, st)
  | some .err => (.badRequest "Invalid values: price must be a positive float and quantity a positive integer", st)
  | some (.val price) =>
  match d.quantity with
  | none => (.crash, st)
  | some .err => (.badRequest "Invalid values: price must be a positive float and quantity a positive integer", st)
  | some (.val quantity) =>
  if price < 0 ∨ quantity < 0 then
    (.badRequest "Invalid values: price must be a positive float and quantity a positive integer", st)
  else
  match findProduct st.products (strLower name) with
  | none => (.crash, st)
  | some _ =>
    let ps := st.products.map fun p =>
      if p.name == (strLower name)
      then { p with price := price, quantity := quantity } else p
    (.okMsg "Product updated", { st with products := ps })

/-! ### Order processing (src/app.py lines 148-179) -/

/-- One iteration of the processing loop (lines 163-172): fetch the line
item's product by exact name, clamp or subtract, commit.  `none` when the
product lookup misses (`product_obj.quantity` on `None` raises). -/
def processItem (ps : List Product) (li : LineItem) :
    Option (List Product × LineItem) :=
  match findProduct ps li.product_name with
  | none => none
  | some p =>
    if p.quantity - li.quantity < 0 then
      some (setProductQty ps li.product_name 0, { li with quantity := p.quantity })
    else
      some (setProductQty ps li.product_name (p.quantity - li.quantity), li)

/-- The processing loop over the order's line items, each iteration
committed individually.  Returns the product rows, the line items as left in
the store, and whether the loop ran to completion: on a crash the already
committed iterations stand and the remaining items are untouched. -/
def processItems (ps : List Product) :
    List LineItem → List Product × List LineItem × Bool
  | [] => (ps, [], true)
  | li :: rest =>
    match processItem ps li with
    | none => (ps, li :: rest, false)
    | some (ps', li') =>
      let (ps'', rest', ok) := processItems ps' rest
      (ps'', li' :: rest', ok)

/-- `PUT /api/order/<order_id>` (`api_process_order`, lines 148-179).
A missing order crashes (`order.products` on `None`).  On success the order
gets `date_processed` and `completed = True` and the handler returns the
updated order; the `completed` flag is never consulted. -/
def api_process_order (st : State) (oid : Nat) (now : DateTime) :
    HResult × State :=
  match getOrder st.orders oid with
  | none => (.crash, st)
  | some o =>
    let (ps', items', ok) := processItems st.products o.products
    if ok then
      let o' := { o with products := items',
                         date_processed := some (strftime_YmdHM now),
                         completed := true }
      (.okOrder o', { products := ps', orders := setOrder st.orders oid o' })
    else
      let o' := { o with products := items' }
      (.crash, { products := ps', orders := setOrder st.orders oid o' })

/-! ### Order creation and line-item replacement (src/app.py lines 182-237, 284-330) -/

/-- One element of a `products` payload sequence.  `extra` records whether
the JSON object carries any key other than `product_name` / `quantity`
(the handlers only test `key not in ("product_name", "quantity")`); the two
required keys are modelled as present. -/
structure ItemPayload where
  product_name : String
  quantity : IntVal
  extra : Bool
deriving Repr, DecidableEq

/-- Payload of `POST /api/order`. -/
structure OrderPayload where
  customer_name : Option String
  customer_address : Option String
  completed : Option PyBool
  products : Option (List ItemPayload)
  date_created : Option String
  date_processed : Option (Option String)
deriving Repr, DecidableEq

/-- The `try` loop shared by order creation (lines 208-221) and line-item
replacement (lines 307-318): per item, re-check product existence, run
`int(...)` on the quantity, reject negatives, and build the
`ProductsOrder` rows. -/
inductive ItemsOutcome where
  | notFound
  | invalid
  | ok (l : List LineItem)
deriving Repr, DecidableEq

def coerceItems (st : State) : List ItemPayload → ItemsOutcome
  | [] => .ok []
  | it :: rest =>
    if (findProduct st.products it.product_name).isNone then .notFound
    else
      match it.quantity with
      | .err => .invalid
      | .val q =>
        if q < 0 then .invalid
        else
          match coerceItems st rest with
          | .ok l => .ok ({ product_name := it.product_name, quantity := q } :: l)
          | e => e

/-- `POST /api/order` (`api_create_order`, lines 182-237).  `nextId` is the
system-generated id the database assigns to the inserted row. -/
def api_create_order (st : State) (d : OrderPayload) (nextId : Nat) :
    HResult × State :=
  match d.customer_name with
  | none => (.badRequest "The JSON provided is invalid (missing: customer_name)", st)
  | some customer_name =>
  match d.customer_address with
  | none => (.badRequest "The JSON provided is invalid (missing: customer_address)", st)
  | some customer_address =>
  match d.completed with
  | none => (.badRequest "The JSON provided is invalid (missing: completed)", st)
  | some completedV =>
  match d.products with
  | none => (.badRequest "The JSON provided is invalid (missing: products)", st)
  | some items =>
  match d.date_created with
  | none => (.badRequest "The JSON provided is invalid (missing: date_created)", st)
  | some date_created =>
  match d.date_processed with
  | none => (.badRequest "The JSON provided is invalid (missing: date_processed)", st)
  | some date_processed =>
  if items.any (fun it => it.extra) then
    (.badRequest "The JSON provided is invalid, 'products' is missing a key", st)
  else if items.any (fun it => (findProduct st.products it.product_name).isNone) then
    (.badRequest "Item not found in the database", st)
  else
  match completedV with
  | .nonbool => (.badRequest "The JSON completed provided is invalid", st)
  | .bool completed =>
  match coerceItems st items with
  | .notFound => (.badRequest "Item not found in the database", st)
  | .invalid => (.badRequest "Invalid values: quantity must be a positive integer", st)
  | .ok product_orders =>
    let o : Order :=
      { id := nextId, name := customer_name, address := customer_address,
        completed := completed, date_created := date_created,
        date_processed := date_processed, products := product_orders }
    (.okOrder o, { st with orders := st.orders ++ [o] })

/-- `POST /api/order/<order_id>` (`api_update_order`, lines 284-330).  After
validation the handler deletes the `(product_name, order_id)` row for every
payload item; `db.session.delete(None)` raises when that row is absent, and
`order.products` on `None` raises when the order is absent — the session is
never committed on those paths, so the store is unchanged. -/
def api_update_order (st : State) (oid : Nat) (items : List ItemPayload) :
    HResult × State :=
  if items.any (fun it => it.extra) then
    (.badRequest "The JSON provided is invalid, 'products' is missing a key", st)
  else if items.any (fun it => (findProduct st.products it.product_name).isNone) then
    (.badRequest "Item not found in the database", st)
  else
  match coerceItems st items with
  | .notFound => (.badRequest "Item not found in the database", st)
  | .invalid => (.badRequest "Invalid values: quantity must be a positive integer", st)
  | .ok product_orders =>
    match getOrder st.orders oid with
    | none => (.crash, st)
    | some o =>
      if items.any (fun it =>
          (o.products.find? (fun li => li.product_name == it.product_name)).isNone) then
        (.crash, st)
      else
        (.okMsg "Order Updated successfully",
         { st with orders := setOrder st.orders oid { o with products := product_orders } })

/-! ### Helper lemmas -/

theorem findProduct_set_self (ps : List Product) (k : String) (q : Int) :
    findProduct (setProductQty ps k q) k
      = (findProduct ps k).map (fun p => { p with quantity := q }) := by
  induction ps with
  | nil => rfl
  | cons a t ih =>
    by_cases h : (a.name == k) = true
    · simp [findProduct, setProductQty, List.find?, h] at *
    · simp [findProduct, setProductQty, List.find?, h] at ih ⊢
      exact ih

theorem findProduct_set_ne (ps : List Product) (k k' : String) (q : Int)
    (h : k' ≠ k) :
    findProduct (setProductQty ps k q) k' = findProduct ps k' := by
  induction ps with
  | nil => rfl
  | cons a t ih =>
    by_cases hk : (a.name == k) = true
    · have hk' : (a.name == k') = false := by
        rw [beq_iff_eq] at hk
        subst hk
        simpa using fun hh => h hh.symm
      simp [findProduct, setProductQty, List.find?, hk, hk'] at ih ⊢
      exact ih
    · simp [findProduct, setProductQty, List.find?, hk] at ih ⊢
      by_cases hk' : (a.name == k') = true
      · simp [hk', ih]
      · simp [hk', ih]

theorem findProduct_append (ps qs : List Product) (k : String) :
    findProduct (ps ++ qs) k
      = ((findProduct ps k).rec (findProduct qs k) (fun p => some p)) := by
  induction ps with
  | nil => rfl
  | cons a t ih =>
    by_cases h : (a.name == k) = true
    · simp [findProduct, List.find?, h]
    · simp [findProduct, List.find?, h] at ih ⊢
      exact ih

theorem getOrder_set_self (os : List Order) (oid : Nat) (o o' : Order)
    (hfind : getOrder os oid = some o) (hid : o'.id = oid) :
    getOrder (setOrder os oid o') oid = some o' := by
  induction os with
  | nil => simp [getOrder] at hfind
  | cons a t ih =>
    by_cases h : (a.id == oid) = true
    · simp [getOrder, setOrder, List.find?, h, hid]
    · simp [getOrder, setOrder, List.find?, h] at hfind ih ⊢
      exact ih hfind

theorem getOrder_set_ne (os : List Order) (oid oid' : Nat) (o' : Order)
    (hid : o'.id = oid) (h : oid' ≠ oid) :
    getOrder (setOrder os oid o') oid' = getOrder os oid' := by
  induction os with
  | nil => rfl
  | cons a t ih =>
    by_cases hk : (a.id == oid) = true
    · rw [beq_iff_eq] at hk
      have hk1 : (a.id == oid') = false := by
        simp only [beq_eq_false_iff_ne, ne_eq]
        omega
      have hk2 : (o'.id == oid') = false := by
        simp only [beq_eq_false_iff_ne, ne_eq]
        omega
      have hk' : (a.id == oid) = true := by simp [hk]
      simp [getOrder, setOrder, List.find?, hk', hk1, hk2] at ih ⊢
      exact ih
    · simp [getOrder, setOrder, List.find?, hk] at ih ⊢
      by_cases hk' : (a.id == oid') = true <;> simp [hk', ih]

theorem isDigit_digitChar10 (n : Nat) : (digitChar10 n).isDigit = true := by
  have h : n % 10 < 10 := Nat.mod_lt _ (by omega)
  unfold digitChar10
  set m := n % 10 with hm
  interval_cases m <;> decide

theorem tsFormatOk_strftime (d : DateTime) :
    tsFormatOk (strftime_YmdHM d) = true := by
  simp [tsFormatOk, strftime_YmdHM, pad4, pad2, isDigit_digitChar10]

theorem processItems_inv (items : List LineItem) :
    ∀ ps : List Product, (∀ p ∈ ps, 0 ≤ p.price ∧ 0 ≤ p.quantity) →
      ∀ p ∈ (processItems ps items).1, 0 ≤ p.price ∧ 0 ≤ p.quantity := by
  induction items with
  | nil => intro ps h; simpa [processItems] using h
  | cons li rest ih =>
    intro ps h
    show ∀ p ∈ (processItems ps (li :: rest)).1, _
    rw [processItems]
    rcases hpi : processItem ps li with _ | ⟨ps', li'⟩
    · simpa using h
    · have hps' : ∀ p ∈ ps', 0 ≤ p.price ∧ 0 ≤ p.quantity := by
        rw [processItem] at hpi
        rcases hf : findProduct ps li.product_name with _ | p0
        · simp [hf] at hpi
        · rw [hf] at hpi
          by_cases hc : p0.quantity - li.quantity < 0
          · simp only [if_pos hc, Option.some.injEq, Prod.mk.injEq] at hpi
            intro p hp
            rw [← hpi.1] at hp
            rcases List.mem_map.1 hp with ⟨p1, hp1, rfl⟩
            by_cases he : (p1.name == li.product_name) = true
            · simp [he]
              exact (h p1 hp1).1
            · simpa [he] using h p1 hp1
          · simp only [if_neg hc, Option.some.injEq, Prod.mk.injEq] at hpi
            intro p hp
            rw [← hpi.1] at hp
            rcases List.mem_map.1 hp with ⟨p1, hp1, rfl⟩
            by_cases he : (p1.name == li.product_name) = true
            · simp [he]
              exact ⟨(h p1 hp1).1, by omega⟩
            · simpa [he] using h p1 hp1
      simpa using ih ps' hps'

theorem processItems_within (items : List LineItem) :
    ∀ ps : List Product,
    (items.map (fun li => li.product_name)).Nodup →
    (∀ li ∈ items, ∃ p, findProduct ps li.product_name = some p ∧
        li.quantity ≤ p.quantity) →
    ∃ ps', processItems ps items = (ps', items, true) ∧
      (∀ li ∈ items, ∀ p, findProduct ps li.product_name = some p →
        findProduct ps' li.product_name
          = some { p with quantity := p.quantity - li.quantity }) ∧
      (∀ n, n ∉ items.map (fun li => li.product_name) →
        findProduct ps' n = findProduct ps n) := by
  induction items with
  | nil =>
    intro ps _ _
    exact ⟨ps, rfl, by simp, fun n _ => rfl⟩
  | cons li rest ih =>
    intro ps hnd hex
    obtain ⟨p, hp, hq⟩ := hex li (by simp)
    have hc : ¬ (p.quantity - li.quantity < 0) := by omega
    have hstep : processItem ps li
        = some (setProductQty ps li.product_name (p.quantity - li.quantity), li) := by
      rw [processItem, hp]
      simp [hc]
    set ps1 := setProductQty ps li.product_name (p.quantity - li.quantity) with hps1
    rw [List.map_cons, List.nodup_cons] at hnd
    have hnm : li.product_name ∉ rest.map (fun li2 => li2.product_name) := hnd.1
    have hfind1 : ∀ li2 ∈ rest,
        findProduct ps1 li2.product_name = findProduct ps li2.product_name := by
      intro li2 h2
      apply findProduct_set_ne
      intro hcontra
      exact hnm (hcontra ▸ List.mem_map_of_mem _ h2)
    have hex' : ∀ li2 ∈ rest, ∃ p2, findProduct ps1 li2.product_name = some p2 ∧
        li2.quantity ≤ p2.quantity := by
      intro li2 h2
      obtain ⟨p2, hp2, hq2⟩ := hex li2 (by simp [h2])
      exact ⟨p2, by rw [hfind1 li2 h2]; exact hp2, hq2⟩
    obtain ⟨ps', hrun, hupd, hunch⟩ := ih ps1 hnd.2 hex'
    refine ⟨ps', ?_, ?_, ?_⟩
    · rw [processItems, hstep]
      simp [hrun]
    · intro li2 h2 p2 hp2
      rcases List.mem_cons.1 h2 with h2 | h2
      · subst h2
        have hpp : p2 = p := by
          rw [hp] at hp2
          exact (Option.some.injEq _ _ ▸ hp2).symm
        subst hpp
        rw [hunch li2.product_name hnm, hps1, findProduct_set_self, hp]
        rfl
      · have := hupd li2 h2 p2 (by rw [hfind1 li2 h2]; exact hp2)
        exact this
    · intro n hn
      have hn1 : n ∉ rest.map (fun li2 => li2.product_name) := by
        intro hmem
        exact hn (by simp at hmem ⊢; tauto)
      have hn2 : n ≠ li.product_name := by
        intro hmem
        exact hn (by simp [hmem])
      rw [hunch n hn1, hps1, findProduct_set_ne _ _ _ _ hn2]

/-! ### Claim theorems -/

/-- C4: a valid product-create payload with `price >= 0` and `quantity >= 0`
stores the product under the lowercased name as its key, and a subsequent
lookup by any casing of that name returns the same record with identical
field values. -/
theorem create_product_lowercase_key_roundtrip
    (st : State) (name v : String) (pr : Rat) (q : Int)
    (hfresh : findProduct st.products (strLower name) = none)
    (hpr : 0 ≤ pr) (hq : 0 ≤ q)
    (hv : strLower v = strLower name) :
    (api_create_product st ⟨some name, some (.val pr), some (.val q)⟩).1
      = .okMsg "Item added to the database" ∧
    api_get_product
        (api_create_product st ⟨some name, some (.val pr), some (.val q)⟩).2 v
      = .okProduct { name := strLower name, price := pr, quantity := q } := by
  have hneg : ¬ (pr < 0 ∨ q < 0) := by push_neg; exact ⟨hpr, hq⟩
  refine ⟨by simp [api_create_product, hneg], ?_⟩
  simp only [api_create_product, hneg, if_false, reduceIte]
  simp only [findProduct] at hfresh
  simp [api_get_product, hv, findProduct_append, hfresh, findProduct,
    List.find?, mkProduct]

theorem create_product_lowercase_key_roundtrip_witness :
    (api_create_product ⟨[], []⟩
        ⟨some "Widget", some (.val 1), some (.val 2)⟩).1
      = .okMsg "Item added to the database" ∧
    api_get_product (api_create_product ⟨[], []⟩
        ⟨some "Widget", some (.val 1), some (.val 2)⟩).2 "widget"
      = .okProduct { name := strLower "Widget", price := 1, quantity := 2 } :=
  create_product_lowercase_key_roundtrip ⟨[], []⟩ "Widget" "widget" 1 2 rfl
    (by norm_num) (by norm_num) (by decide)

/-- A found order's id is the key it was found under. -/
theorem getOrder_id (os : List Order) (oid : Nat) (o : Order)
    (h : getOrder os oid = some o) : o.id = oid := by
  have := List.find?_some h
  simpa using this

/-- The shared `try` loop succeeds when every referenced product exists and
every quantity coerces to a non-negative integer. -/
theorem coerceItems_ok (st : State) (items : List ItemPayload)
    (hex : ∀ i ∈ items, (findProduct st.products i.product_name).isSome = true)
    (hq : ∀ i ∈ items, ∃ q, i.quantity = .val q ∧ 0 ≤ q) :
    ∃ l, coerceItems st items = .ok l := by
  induction items with
  | nil => exact ⟨[], rfl⟩
  | cons it rest ih =>
    obtain ⟨q, hval, hq0⟩ := hq it (by simp)
    have h1 : (findProduct st.products it.product_name).isNone = false := by
      have h2 := hex it (by simp)
      rcases hfp : findProduct st.products it.product_name with _ | p
      · rw [hfp] at h2
        simp at h2
      · rfl
    obtain ⟨l, hl⟩ := ih (fun i hi => hex i (by simp [hi]))
      (fun i hi => hq i (by simp [hi]))
    refine ⟨{ product_name := it.product_name, quantity := q } :: l, ?_⟩
    rw [coerceItems, hval]
    simp [h1, hl, not_lt.2 hq0]

/-- Recognizer for a 400-class response. -/
def isBadRequest : HResult → Bool
  | .badRequest _ => true
  | _ => false

/-- C1: processing an order whose line item requests quantity `q` against a
product whose current stock `s` satisfies `s - q < 0` persists the line
item's quantity as the pre-decrement stock `s` and sets the product's stock
to 0; the order is returned completed with the clamped line item. -/
theorem process_order_clamps_oversold
    (st : State) (oid : Nat) (now : DateTime) (o : Order)
    (li : LineItem) (p : Product)
    (ho : getOrder st.orders oid = some o)
    (hitems : o.products = [li])
    (hp : findProduct st.products li.product_name = some p)
    (hclamp : p.quantity - li.quantity < 0) :
    (api_process_order st oid now).1
      = .okOrder { o with products := [{ li with quantity := p.quantity }],
                          completed := true,
                          date_processed := some (strftime_YmdHM now) } ∧
    findProduct (api_process_order st oid now).2.products li.product_name
      = some { p with quantity := 0 } ∧
    getOrder (api_process_order st oid now).2.orders oid
      = some { o with products := [{ li with quantity := p.quantity }],
                      completed := true,
                      date_processed := some (strftime_YmdHM now) } := by
  have hid : o.id = oid := getOrder_id _ _ _ ho
  have hpi : processItem st.products li
      = some (setProductQty st.products li.product_name 0,
              { li with quantity := p.quantity }) := by
    rw [processItem, hp]
    simp [hclamp]
  have hrun : processItems st.products o.products
      = (setProductQty st.products li.product_name 0,
         [{ li with quantity := p.quantity }], true) := by
    rw [hitems, processItems, hpi]
    simp [processItems]
  refine ⟨?_, ?_, ?_⟩
  · simp [api_process_order, ho, hrun]
  · simp only [api_process_order, ho, hrun]
    simp [findProduct_set_self, hp]
  · simp only [api_process_order, ho, hrun]
    simp only [if_pos]
    exact getOrder_set_self _ _ _ _ ho hid

/-- The spec's worked example: Product bolt (price 0.5, stock 3), order line
item requesting 5 bolts. -/
def boltProduct : Product := { name := "bolt", price := 1/2, quantity := 3 }

def boltOrder : Order :=
  { id := 1, name := "Tim", address := "Vancouver", completed := false,
    date_created := "2023-03-01 10:00", date_processed := none,
    products := [{ product_name := "bolt", quantity := 5 }] }

def boltState : State := ⟨[boltProduct], [boltOrder]⟩

def sampleNow : DateTime := ⟨2023, 3, 2, 10, 30⟩

theorem process_order_clamps_oversold_witness :
    (api_process_order boltState 1 sampleNow).1
      = .okOrder { boltOrder with
                    products := [{ product_name := "bolt", quantity := 3 }],
                    completed := true,
                    date_processed := some (strftime_YmdHM sampleNow) } ∧
    findProduct (api_process_order boltState 1 sampleNow).2.products "bolt"
      = some { boltProduct with quantity := 0 } ∧
    getOrder (api_process_order boltState 1 sampleNow).2.orders 1
      = some { boltOrder with
                products := [{ product_name := "bolt", quantity := 3 }],
                completed := true,
                date_processed := some (strftime_YmdHM sampleNow) } :=
  process_order_clamps_oversold boltState 1 sampleNow boltOrder
    { product_name := "bolt", quantity := 5 } boltProduct rfl rfl rfl (by decide)

/-- C2: processing an order whose line items each request at most the
referenced product's stock (products referenced once each, as the composite
line-item key guarantees) decrements each product by exactly the requested
amount, leaves line-item quantities unchanged, marks the order completed,
and stamps `date_processed` with a `YYYY-MM-DD HH:MM` timestamp. -/
theorem process_order_within_stock
    (st : State) (oid : Nat) (now : DateTime) (o : Order)
    (ho : getOrder st.orders oid = some o)
    (hnd : (o.products.map (fun li => li.product_name)).Nodup)
    (hex : ∀ li ∈ o.products, ∃ p, findProduct st.products li.product_name = some p ∧
        li.quantity ≤ p.quantity) :
    (api_process_order st oid now).1
      = .okOrder { o with completed := true,
                          date_processed := some (strftime_YmdHM now) } ∧
    getOrder (api_process_order st oid now).2.orders oid
      = some { o with completed := true,
                      date_processed := some (strftime_YmdHM now) } ∧
    (∀ li ∈ o.products, ∀ p, findProduct st.products li.product_name = some p →
      findProduct (api_process_order st oid now).2.products li.product_name
        = some { p with quantity := p.quantity - li.quantity }) ∧
    (∀ n, n ∉ o.products.map (fun li => li.product_name) →
      findProduct (api_process_order st oid now).2.products n
        = findProduct st.products n) ∧
    tsFormatOk (strftime_YmdHM now) = true := by
  have hid : o.id = oid := getOrder_id _ _ _ ho
  obtain ⟨ps', hrun, hupd, hunch⟩ := processItems_within o.products st.products hnd hex
  refine ⟨?_, ?_, ?_, ?_, tsFormatOk_strftime now⟩
  · simp [api_process_order, ho, hrun]
  · simp only [api_process_order, ho, hrun]
    simp only [if_pos]
    exact getOrder_set_self _ _ _ _ ho hid
  · intro li hli p hp
    simp only [api_process_order, ho, hrun]
    simp only [if_pos]
    exact hupd li hli p hp
  · intro n hn
    simp only [api_process_order, ho, hrun]
    simp only [if_pos]
    exact hunch n hn

def nutProduct : Product := { name := "nut", price := 1, quantity := 10 }

def twoOrder : Order :=
  { id := 2, name := "Ann", address := "Burnaby", completed := false,
    date_created := "2023-03-01 11:00", date_processed := none,
    products := [{ product_name := "bolt", quantity := 2 },
                 { product_name := "nut", quantity := 4 }] }

def twoState : State := ⟨[boltProduct, nutProduct], [twoOrder]⟩

theorem process_order_within_stock_witness :
    (api_process_order twoState 2 sampleNow).1
      = .okOrder { twoOrder with completed := true,
                                 date_processed := some (strftime_YmdHM sampleNow) } ∧
    getOrder (api_process_order twoState 2 sampleNow).2.orders 2
      = some { twoOrder with completed := true,
                             date_processed := some (strftime_YmdHM sampleNow) } ∧
    (∀ li ∈ twoOrder.products, ∀ p,
      findProduct twoState.products li.product_name = some p →
      findProduct (api_process_order twoState 2 sampleNow).2.products li.product_name
        = some { p with quantity := p.quantity - li.quantity }) ∧
    (∀ n, n ∉ twoOrder.products.map (fun li => li.product_name) →
      findProduct (api_process_order twoState 2 sampleNow).2.products n
        = findProduct twoState.products n) ∧
    tsFormatOk (strftime_YmdHM sampleNow) = true :=
  process_order_within_stock twoState 2 sampleNow twoOrder rfl (by decide)
    (by
      intro li hli
      simp only [twoOrder] at hli
      rcases List.mem_cons.1 hli with h | h
      · subst h
        exact ⟨boltProduct, rfl, by decide⟩
      · rw [List.mem_singleton] at h
        subst h
        exact ⟨nutProduct, rfl, by decide⟩)

/-- C9: `api_process_order` never consults the `completed` flag: invoking it
on an already-completed order is not rejected; the per-line-item decrement
(with the same clamping rule) runs again against the current, already
adjusted stock. -/
theorem process_completed_order_not_guarded
    (st : State) (oid : Nat) (now : DateTime) (o : Order)
    (li : LineItem) (p : Product)
    (ho : getOrder st.orders oid = some o)
    (_hdone : o.completed = true)
    (hitems : o.products = [li])
    (hp : findProduct st.products li.product_name = some p) :
    (api_process_order st oid now).1
      = .okOrder { o with
          products := [if p.quantity - li.quantity < 0
                       then { li with quantity := p.quantity } else li],
          completed := true,
          date_processed := some (strftime_YmdHM now) } ∧
    findProduct (api_process_order st oid now).2.products li.product_name
      = some { p with quantity := if p.quantity - li.quantity < 0
                                  then 0 else p.quantity - li.quantity } := by
  by_cases hclamp : p.quantity - li.quantity < 0
  · have hpi : processItem st.products li
        = some (setProductQty st.products li.product_name 0,
                { li with quantity := p.quantity }) := by
      rw [processItem, hp]
      simp [hclamp]
    have hrun : processItems st.products o.products
        = (setProductQty st.products li.product_name 0,
           [{ li with quantity := p.quantity }], true) := by
      rw [hitems, processItems, hpi]
      simp [processItems]
    constructor
    · simp [api_process_order, ho, hrun, hclamp]
    · simp only [api_process_order, ho, hrun]
      simp [findProduct_set_self, hp, hclamp]
  · have hpi : processItem st.products li
        = some (setProductQty st.products li.product_name
                  (p.quantity - li.quantity), li) := by
      rw [processItem, hp]
      simp [hclamp]
    have hrun : processItems st.products o.products
        = (setProductQty st.products li.product_name (p.quantity - li.quantity),
           [li], true) := by
      rw [hitems, processItems, hpi]
      simp [processItems]
    constructor
    · simp [api_process_order, ho, hrun, hclamp]
    · simp only [api_process_order, ho, hrun]
      simp [findProduct_set_self, hp, hclamp]

/-- The bolt order after its first processing run: stock clamped to 0,
line item rewritten to 3, order completed. -/
def boltStateProcessed : State :=
  ⟨[{ boltProduct with quantity := 0 }],
   [{ boltOrder with products := [{ product_name := "bolt", quantity := 3 }],
                     completed := true,
                     date_processed := some (strftime_YmdHM sampleNow) }]⟩

theorem process_completed_order_not_guarded_witness :
    (api_process_order boltStateProcessed 1 sampleNow).1
      = .okOrder { { boltOrder with
                      products := [{ product_name := "bolt", quantity := 3 }],
                      completed := true,
                      date_processed := some (strftime_YmdHM sampleNow) } with
          products := [if (0 : Int) - 3 < 0
                       then { product_name := "bolt", quantity := (0 : Int) }
                       else { product_name := "bolt", quantity := 3 }],
          completed := true,
          date_processed := some (strftime_YmdHM sampleNow) } ∧
    findProduct (api_process_order boltStateProcessed 1 sampleNow).2.products "bolt"
      = some { { boltProduct with quantity := 0 } with
               quantity := if (0 : Int) - 3 < 0 then 0 else (0 : Int) - 3 } :=
  process_completed_order_not_guarded boltStateProcessed 1 sampleNow
    { boltOrder with products := [{ product_name := "bolt", quantity := 3 }],
                     completed := true,
                     date_processed := some (strftime_YmdHM sampleNow) }
    { product_name := "bolt", quantity := 3 }
    { boltProduct with quantity := 0 }
    rfl rfl rfl rfl

/-- C7 (code bug per spec sections 4.3 and 9): deleting or updating a
product whose lookup returns no match does not yield `NotFound`; both
handlers dereference the `None` result and raise (HTTP 500).  Evaluated
here at the concrete missing name "ghost" on an empty store. -/
theorem delete_update_missing_product_crashes :
    api_delete_product ⟨[], []⟩ "ghost" = (.crash, ⟨[], []⟩) ∧
    api_update_product ⟨[], []⟩ "ghost" ⟨some (.val 1), some (.val 1)⟩
      = (.crash, ⟨[], []⟩) ∧
    (api_delete_product ⟨[], []⟩ "ghost").1 ≠ .notFound "Item not found in the database" ∧
    (api_update_product ⟨[], []⟩ "ghost" ⟨some (.val 1), some (.val 1)⟩).1
      ≠ .notFound "Item not found in the database" := by
  refine ⟨rfl, ?_, by decide, ?_⟩
  · rfl
  · decide

/-- A one-product store used by several concrete evaluations below. -/
def oneBolt : State := ⟨[{ name := "bolt", price := 2, quantity := 3 }], []⟩

/-- C6 counterexample: a product-update payload supplying only `price`
(present, non-negative, numeric) does not complete successfully: the
handler raises `KeyError` on the absent `quantity` (HTTP 500). -/
theorem update_product_single_field_cex :
    api_update_product oneBolt "bolt" ⟨some (.val 1), none⟩ = (.crash, oneBolt) ∧
    (api_update_product oneBolt "bolt" ⟨some (.val 1), none⟩).1
      ≠ .okMsg "Product updated" := by
  exact ⟨rfl, by decide⟩

/-- C6 amended: the presence guard accepts any payload with at least one of
`price`/`quantity`, but the operation completes successfully only when both
are present with non-negative numeric values (on an existing product); with
exactly one of the two present it crashes with an uncaught `KeyError`; with
neither it is rejected with a 400. -/
theorem update_product_field_requirements (st : State) (name : String) :
    (∀ pr q, 0 ≤ pr → 0 ≤ q →
      (findProduct st.products (strLower name)).isSome = true →
      (api_update_product st name ⟨some (.val pr), some (.val q)⟩).1
        = .okMsg "Product updated") ∧
    (∀ pr, (api_update_product st name ⟨some (.val pr), none⟩).1 = .crash) ∧
    (∀ v, (api_update_product st name ⟨none, some v⟩).1 = .crash) ∧
    (api_update_product st name ⟨none, none⟩).1
      = .badRequest "The JSON provided is invalid" := by
  refine ⟨?_, ?_, ?_, rfl⟩
  · intro pr q hpr hq hsome
    have hneg : ¬ (pr < 0 ∨ q < 0) := by push_neg; exact ⟨hpr, hq⟩
    rcases hfp : findProduct st.products (strLower name) with _ | p
    · rw [hfp] at hsome
      simp at hsome
    · simp [api_update_product, hneg, hfp]
  · intro pr
    rfl
  · intro v
    rfl

theorem update_product_field_requirements_witness :
    (api_update_product oneBolt "bolt" ⟨some (.val 1), some (.val 7)⟩).1
      = .okMsg "Product updated" :=
  (update_product_field_requirements oneBolt "bolt").1 1 7
    (by norm_num) (by norm_num) (by decide)

/-- A fully valid order-create payload whose `completed` field is `true`. -/
def completedTruePayload : OrderPayload :=
  { customer_name := some "Tim", customer_address := some "Vancouver",
    completed := some (.bool true),
    products := some [{ product_name := "bolt", quantity := .val 1, extra := false }],
    date_created := some "2023-03-01 10:00", date_processed := some none }

/-- The order that payload persists. -/
def completedTrueOrder : Order :=
  { id := 7, name := "Tim", address := "Vancouver", completed := true,
    date_created := "2023-03-01 10:00", date_processed := none,
    products := [{ product_name := "bolt", quantity := 1 }] }

/-- C3 counterexample: a payload that passes every validation rule but
carries `completed = true` is persisted with `completed = true`, not
`false` — the create handler copies the flag from the payload. -/
theorem create_order_completed_true_cex :
    api_create_order oneBolt completedTruePayload 7
      = (.okOrder completedTrueOrder,
         ⟨oneBolt.products, oneBolt.orders ++ [completedTrueOrder]⟩) ∧
    completedTrueOrder.completed ≠ false := by
  exact ⟨rfl, by decide⟩

/-- C3 amended: the order persisted by create carries exactly the payload's
`completed` boolean (so it is false only when the payload says false), and
the line-item replacement operation never modifies any order's `completed`
flag. -/
theorem create_order_completed_echoes_payload :
    (∀ st d nid o st2, api_create_order st d nid = (.okOrder o, st2) →
      d.completed = some (.bool o.completed) ∧
      st2.orders = st.orders ++ [o] ∧ st2.products = st.products) ∧
    (∀ st oid items oid2,
      (getOrder (api_update_order st oid items).2.orders oid2).map
          (fun o2 => o2.completed)
        = (getOrder st.orders oid2).map (fun o2 => o2.completed)) := by
  constructor
  · intro st d nid o st2 h
    rcases d with ⟨cn, ca, co, pr, dc, dp⟩
    rcases cn with _ | cn
    · simp [api_create_order] at h
    rcases ca with _ | ca
    · simp [api_create_order] at h
    rcases co with _ | co
    · simp [api_create_order] at h
    rcases pr with _ | items
    · simp [api_create_order] at h
    rcases dc with _ | dc
    · simp [api_create_order] at h
    rcases dp with _ | dp
    · simp [api_create_order] at h
    by_cases h1 : (items.any fun it => it.extra) = true
    · simp [api_create_order, h1] at h
    by_cases h2 : (items.any fun it =>
        (findProduct st.products it.product_name).isNone) = true
    · simp [api_create_order, h1, h2] at h
    rcases co with b | _
    · rcases h3 : coerceItems st items with _ | _ | l
      · simp [api_create_order, h1, h2, h3] at h
      · simp [api_create_order, h1, h2, h3] at h
      · simp only [api_create_order, h1, h2, h3, Bool.false_eq_true,
          if_false, reduceIte, Prod.mk.injEq, HResult.okOrder.injEq] at h
        obtain ⟨h4, h5⟩ := h
        subst h5
        simp [← h4]
    · simp [api_create_order, h1, h2] at h
  · intro st oid items oid2
    by_cases h1 : (items.any fun it => it.extra) = true
    · simp [api_update_order, h1]
    by_cases h2 : (items.any fun it =>
        (findProduct st.products it.product_name).isNone) = true
    · simp [api_update_order, h1, h2]
    rcases h3 : coerceItems st items with _ | _ | l
    · simp [api_update_order, h1, h2, h3]
    · simp [api_update_order, h1, h2, h3]
    rcases h4 : getOrder st.orders oid with _ | o
    · simp [api_update_order, h1, h2, h3, h4]
    by_cases h5 : (items.any fun it =>
        (o.products.find? fun li2 => li2.product_name == it.product_name).isNone)
          = true
    · simp [api_update_order, h1, h2, h3, h4, h5]
    · simp only [api_update_order, h1, h2, h3, h4, h5, Bool.false_eq_true,
        if_false, reduceIte]
      by_cases h6 : oid2 = oid
      · subst h6
        rw [getOrder_set_self st.orders oid2 o { o with products := l } h4
          (getOrder_id st.orders oid2 o h4), h4]
        rfl
      · rw [getOrder_set_ne st.orders oid oid2 { o with products := l }
          (getOrder_id st.orders oid o h4) h6]

theorem create_order_completed_echoes_payload_witness :
    completedTruePayload.completed = some (.bool completedTrueOrder.completed) ∧
    (⟨oneBolt.products, oneBolt.orders ++ [completedTrueOrder]⟩ : State).orders
      = oneBolt.orders ++ [completedTrueOrder] ∧
    (⟨oneBolt.products, oneBolt.orders ++ [completedTrueOrder]⟩ : State).products
      = oneBolt.products :=
  create_order_completed_echoes_payload.1 oneBolt completedTruePayload 7
    completedTrueOrder ⟨oneBolt.products, oneBolt.orders ++ [completedTrueOrder]⟩
    (by decide)

/-- C5: an order-create payload referencing a product name absent from the
store is rejected with a 400 and the store is left unchanged; when the
payload is otherwise well-formed (all six fields present, no extraneous
line-item keys) the 400 carries the unknown-product message. -/
theorem create_order_unknown_product_rejected
    (st : State) (d : OrderPayload) (nextId : Nat) (items : List ItemPayload)
    (it : ItemPayload)
    (hprod : d.products = some items)
    (hmem : it ∈ items)
    (hunk : findProduct st.products it.product_name = none) :
    (isBadRequest (api_create_order st d nextId).1 = true ∧
      (api_create_order st d nextId).2 = st) ∧
    (d.customer_name ≠ none → d.customer_address ≠ none → d.completed ≠ none →
     d.date_created ≠ none → d.date_processed ≠ none →
     (∀ i ∈ items, i.extra = false) →
     (api_create_order st d nextId).1
        = .badRequest "Item not found in the database") := by
  rcases d with ⟨cn, ca, co, pr, dc, dp⟩
  obtain rfl : pr = some items := hprod
  have hmiss : (items.any fun i => (findProduct st.products i.product_name).isNone)
      = true :=
    List.any_eq_true.2 ⟨it, hmem, by simp [hunk]⟩
  rcases cn with _ | cn
  · exact ⟨⟨rfl, rfl⟩, fun h => absurd rfl h⟩
  rcases ca with _ | ca
  · exact ⟨⟨rfl, rfl⟩, fun _ h => absurd rfl h⟩
  rcases co with _ | co
  · exact ⟨⟨rfl, rfl⟩, fun _ _ h => absurd rfl h⟩
  rcases dc with _ | dc
  · exact ⟨⟨rfl, rfl⟩, fun _ _ _ h => absurd rfl h⟩
  rcases dp with _ | dp
  · exact ⟨⟨rfl, rfl⟩, fun _ _ _ _ h => absurd rfl h⟩
  by_cases h1 : (items.any fun i => i.extra) = true
  · refine ⟨⟨?_, ?_⟩, ?_⟩
    · simp [api_create_order, h1, isBadRequest]
    · simp [api_create_order, h1]
    · intro _ _ _ _ _ hexf
      exfalso
      obtain ⟨i, hi, hex⟩ := List.any_eq_true.1 h1
      exact absurd (hexf i hi) (by simp [hex])
  · refine ⟨⟨?_, ?_⟩, fun _ _ _ _ _ _ => ?_⟩
    · simp [api_create_order, h1, hmiss, isBadRequest]
    · simp [api_create_order, h1, hmiss]
    · simp [api_create_order, h1, hmiss]

theorem create_order_unknown_product_rejected_witness :
    (isBadRequest (api_create_order ⟨[], []⟩
        { customer_name := some "Tim", customer_address := some "Vancouver",
          completed := some (.bool false),
          products := some [{ product_name := "ghost", quantity := .val 1,
                              extra := false }],
          date_created := some "2023-03-01 10:00",
          date_processed := some none } 1).1 = true ∧
      (api_create_order ⟨[], []⟩
        { customer_name := some "Tim", customer_address := some "Vancouver",
          completed := some (.bool false),
          products := some [{ product_name := "ghost", quantity := .val 1,
                              extra := false }],
          date_created := some "2023-03-01 10:00",
          date_processed := some none } 1).2 = ⟨[], []⟩) ∧
    ((some "Tim" : Option String) ≠ none → (some "Vancouver" : Option String) ≠ none →
     (some (PyBool.bool false) : Option PyBool) ≠ none →
     (some "2023-03-01 10:00" : Option String) ≠ none →
     (some (none : Option String) : Option (Option String)) ≠ none →
     (∀ i ∈ [({ product_name := "ghost", quantity := .val 1,
                extra := false } : ItemPayload)], i.extra = false) →
     (api_create_order ⟨[], []⟩
        { customer_name := some "Tim", customer_address := some "Vancouver",
          completed := some (.bool false),
          products := some [{ product_name := "ghost", quantity := .val 1,
                              extra := false }],
          date_created := some "2023-03-01 10:00",
          date_processed := some none } 1).1
        = .badRequest "Item not found in the database") :=
  create_order_unknown_product_rejected ⟨[], []⟩
    { customer_name := some "Tim", customer_address := some "Vancouver",
      completed := some (.bool false),
      products := some [{ product_name := "ghost", quantity := .val 1,
                          extra := false }],
      date_created := some "2023-03-01 10:00", date_processed := some none } 1
    [{ product_name := "ghost", quantity := .val 1, extra := false }]
    { product_name := "ghost", quantity := .val 1, extra := false }
    rfl (by decide) rfl

/-- C10: the line-item replacement handler has the unstated precondition
that every payload `product_name` already be a line item of the order: for
an otherwise fully valid payload naming a product with no existing
`(product_name, order_id)` row, the per-item deletion dereferences the
`None` lookup and the request fails with an internal error (not a 400),
leaving the store unchanged. -/
theorem update_order_missing_line_item_crashes
    (st : State) (oid : Nat) (items : List ItemPayload) (o : Order)
    (it : ItemPayload)
    (hext : ∀ i ∈ items, i.extra = false)
    (hknown : ∀ i ∈ items, (findProduct st.products i.product_name).isSome = true)
    (hq : ∀ i ∈ items, ∃ q, i.quantity = .val q ∧ 0 ≤ q)
    (ho : getOrder st.orders oid = some o)
    (hmem : it ∈ items)
    (hnoli : o.products.find? (fun li => li.product_name == it.product_name)
        = none) :
    api_update_order st oid items = (.crash, st) ∧
    isBadRequest (api_update_order st oid items).1 = false := by
  have h1 : (items.any fun i => i.extra) = false := by
    rw [List.any_eq_false]
    intro i hi
    simp [hext i hi]
  have h2 : (items.any fun i => (findProduct st.products i.product_name).isNone)
      = false := by
    rw [List.any_eq_false]
    intro i hi
    have := hknown i hi
    rcases hfp : findProduct st.products i.product_name with _ | p
    · rw [hfp] at this
      simp at this
    · simp
  obtain ⟨l, hl⟩ := coerceItems_ok st items hknown hq
  have h5 : (items.any fun i =>
      (o.products.find? fun li => li.product_name == i.product_name).isNone)
        = true :=
    List.any_eq_true.2 ⟨it, hmem, by simp [hnoli]⟩
  have hmain : api_update_order st oid items = (.crash, st) := by
    simp [api_update_order, h1, h2, hl, ho, h5]
  exact ⟨hmain, by rw [hmain]; rfl⟩

def missingLineItemOrder : Order :=
  { id := 3, name := "Bo", address := "Surrey", completed := false,
    date_created := "2023-03-01 12:00", date_processed := none,
    products := [{ product_name := "nut", quantity := 1 }] }

def missingLineItemState : State :=
  ⟨[{ name := "bolt", price := 2, quantity := 3 },
    { name := "nut", price := 1, quantity := 4 }], [missingLineItemOrder]⟩

theorem update_order_missing_line_item_crashes_witness :
    api_update_order missingLineItemState 3
        [{ product_name := "bolt", quantity := .val 2, extra := false }]
      = (.crash, missingLineItemState) ∧
    isBadRequest (api_update_order missingLineItemState 3
        [{ product_name := "bolt", quantity := .val 2, extra := false }]).1
      = false :=
  update_order_missing_line_item_crashes missingLineItemState 3
    [{ product_name := "bolt", quantity := .val 2, extra := false }]
    missingLineItemOrder
    { product_name := "bolt", quantity := .val 2, extra := false }
    (by decide) (by decide)
    (by
      intro i hi
      rw [List.mem_singleton] at hi
      subst hi
      exact ⟨2, rfl, by decide⟩)
    rfl (by decide) rfl

/-- The product-table invariant of the spec's data model. -/
def ProductsOk (st : State) : Prop :=
  ∀ p ∈ st.products, 0 ≤ p.price ∧ 0 ≤ p.quantity

/-- C8: every successful write preserves `price >= 0 ∧ quantity >= 0`:
product create and update validate non-negativity, and order processing
clamps stock at 0 instead of driving it negative (error and crash outcomes
leave only rows that already satisfied the invariant). -/
theorem product_nonneg_invariant :
    (∀ st d, ProductsOk st → ProductsOk (api_create_product st d).2) ∧
    (∀ st name d, ProductsOk st → ProductsOk (api_update_product st name d).2) ∧
    (∀ st oid now, ProductsOk st → ProductsOk (api_process_order st oid now).2) := by
  refine ⟨?_, ?_, ?_⟩
  · intro st d hok
    rcases d with ⟨nm, prv, qv⟩
    rcases nm with _ | nm
    · exact hok
    rcases prv with _ | prv
    · exact hok
    rcases qv with _ | qv
    · exact hok
    rcases prv with pr | _
    · rcases qv with q | _
      · by_cases hneg : pr < 0 ∨ q < 0
        · simpa [api_create_product, hneg] using hok
        · push_neg at hneg
          intro p hp
          simp only [api_create_product, hneg.1, hneg.2] at hp
          simp only [if_neg (by push_neg; exact hneg : ¬ (pr < 0 ∨ q < 0))] at hp
          rcases List.mem_append.1 hp with h | h
          · exact hok p h
          · rw [List.mem_singleton] at h
            subst h
            exact ⟨hneg.1, hneg.2⟩
      · exact hok
    · exact hok
  · intro st name d hok
    rcases d with ⟨prv, qv⟩
    rcases prv with _ | prv
    · rcases qv with _ | qv
      · exact hok
      · exact hok
    rcases qv with _ | qv
    · rcases prv with pr | _
      · exact hok
      · exact hok
    rcases prv with pr | _
    · rcases qv with q | _
      · by_cases hneg : pr < 0 ∨ q < 0
        · simpa [api_update_product, hneg] using hok
        · push_neg at hneg
          rcases hfp : findProduct st.products (strLower name) with _ | p0
          · have hnneg : ¬ (pr < 0 ∨ q < 0) := by push_neg; exact hneg
            simpa [api_update_product, hfp, hnneg] using hok
          · intro p hp
            simp only [api_update_product, hfp] at hp
            simp only [if_neg (by push_neg; exact hneg : ¬ (pr < 0 ∨ q < 0))] at hp
            simp only [if_neg (by simp : ¬ ((some (FloatVal.val pr)).isNone ∧
              (some (IntVal.val q)).isNone))] at hp
            rcases List.mem_map.1 hp with ⟨p1, hp1, rfl⟩
            by_cases he : (p1.name == strLower name) = true
            · simp [he]
              exact ⟨hneg.1, hneg.2⟩
            · simpa [he] using hok p1 hp1
      · exact hok
    · exact hok
  · intro st oid now hok
    rcases ho : getOrder st.orders oid with _ | o
    · simpa [api_process_order, ho] using hok
    · have hinv := processItems_inv o.products st.products hok
      rcases hrun : processItems st.products o.products with ⟨ps', items', ok⟩
      rw [hrun] at hinv
      rcases ok with _ | _
      · intro p hp
        simp only [api_process_order, ho, hrun] at hp
        exact hinv p hp
      · intro p hp
        simp only [api_process_order, ho, hrun] at hp
        exact hinv p hp

def invProcState : State := ⟨oneBolt.products, [boltOrder]⟩

theorem product_nonneg_invariant_witness :
    ProductsOk (api_create_product oneBolt
      ⟨some "nut", some (.val 1), some (.val 2)⟩).2 ∧
    ProductsOk (api_update_product oneBolt "bolt"
      ⟨some (.val 1), some (.val 2)⟩).2 ∧
    ProductsOk (api_process_order invProcState 1 sampleNow).2 :=
  ⟨product_nonneg_invariant.1 oneBolt _ (by unfold ProductsOk; decide),
   product_nonneg_invariant.2.1 oneBolt "bolt" _ (by unfold ProductsOk; decide),
   product_nonneg_invariant.2.2 invProcState 1 sampleNow
     (by unfold ProductsOk; decide)⟩
